import Mathlib

/-!
# Leaderboard synchronization subsystem of `facegame` — shallow embedding

This file embeds the leaderboard core of the repository in Lean 4:

* the client-side `LeaderboardManager` (`leaderboard.js`, in `src/unnamed/part_000`):
  in-memory per-mode ranked lists, the `localStorage` cache, and the operations
  `getScores`, `saveScores`, `addScore` (remote-success and local-fallback paths),
  `clearScores`, `isHighScore`, plus the cache-fallback branch of `loadScores`;
* the spreadsheet-backed remote handler (`src/netlify/functions/scores.js`; the
  Express `app.post`/`app.get` routes in `src/builds/003_facegame/server.js` are
  line-for-line the same validation/append/filter/sort/slice logic);
* the key-value-blob-backed store (`src/builds/003_facegame/netlify/utils/scoresDb.js`).

Modelling conventions:
* ISO-8601 date strings are represented by their millisecond timestamps (`Nat`);
  every comparison the code performs on dates goes through
  `new Date(s)` subtraction, and `toISOString` is strictly monotone in the
  timestamp, so order is preserved exactly.
* JS numbers holding game scores are represented by `Int` (the spec: "score:
  signed integer"); a POST `score` field is `Option Int`, `none` meaning
  "absent or not a number" (the code checks that the JS type of score is number).
* `name` may be `undefined` in JS (it is never validated), hence `Option String`.
* JS `Array.prototype.sort` with a consistent comparator is a stable sort
  (ES2019), and a stable sort is uniquely determined by the comparator, so it is
  embedded as `List.insertionSort le` (the Mathlib one, which is stable) with
  `le a b ↔ cmp(a, b) ≤ 0`.
* `JSON.parse` is an external builtin; where its failure behaviour matters it is
  passed as an oracle `parse : String → Except Unit (List ScoreEntry)`, with
  `Except.error ()` standing for "throws a SyntaxError on this string".
  Elsewhere the cache is viewed post-serialization: a slot stores the list that
  `JSON.stringify` encoded (`JSON.stringify` is injective on these values).
* Effects are explicit state passing; the outcome of a remote HTTP round-trip is
  a parameter (`Option` of the parsed 200 body, or a `Bool` success flag).
-/

namespace FaceGame

/-- A `{name, score, date}` leaderboard entry, the JSON shape shared by the
client `LeaderboardManager` and the key-value store (`scoresDb.js`). `name` is
`Option` because the code never validates its presence. -/
structure ScoreEntry where
  name : Option String
  score : Int
  date : Nat
deriving DecidableEq, Repr

/-- The sort comparator used both by the local fallback of
`LeaderboardManager.addScore` and by `scoresDb.saveScores`:
`cmp(a,b) = b.score - a.score`, and on equal scores `new Date(b.date) - new Date(a.date)`.
`scoreDateDesc a b` says "`a` may be placed before `b`", i.e. `cmp(a,b) ≤ 0`:
score descending, ties by date descending. -/
def scoreDateDesc (a b : ScoreEntry) : Prop :=
  b.score < a.score ∨ (a.score = b.score ∧ b.date ≤ a.date)

instance : DecidableRel scoreDateDesc := fun a b => by
  unfold scoreDateDesc; infer_instance

instance : IsTotal ScoreEntry scoreDateDesc :=
  ⟨by intro a b; unfold scoreDateDesc; omega⟩

instance : IsTrans ScoreEntry scoreDateDesc :=
  ⟨by intro a b c hab hbc; unfold scoreDateDesc at *; omega⟩

/-! ## Client: `LeaderboardManager` (src/unnamed/part_000) -/

/-- The local-fallback ranking algorithm of `addScore` (and, identically,
`scoresDb.saveScores`): push `{name, score, date: now}`, sort with the
comparator above, truncate to 10 (`scores.length = 10`). -/
def addScoreFallbackList (scores : List ScoreEntry) (name : Option String)
    (score : Int) (now : Nat) : List ScoreEntry :=
  ((scores ++ [(⟨name, score, now⟩ : ScoreEntry)]).insertionSort scoreDateDesc).take 10

/-- State of `LeaderboardManager`: the two in-memory lists plus `localStorage`,
keyed by full key string (the code uses keys `` `leaderboard_${mode}` ``).
Cache values are viewed post-`JSON.stringify` (see the file header). -/
structure LeaderboardManager where
  easyModeScores : List ScoreEntry
  hardModeScores : List ScoreEntry
  localStorage : String → Option (List ScoreEntry)

/-- Embeds `getScores(mode)`: the easy list when mode equals "easy", else the hard list. -/
def getScores (m : LeaderboardManager) (mode : String) : List ScoreEntry :=
  if mode = "easy" then m.easyModeScores else m.hardModeScores

/-- The repeated assignment pattern
assigning `s` to `this.easyModeScores` when mode equals "easy", else to `this.hardModeScores`
(also what the in-place array mutation in the fallback amounts to). -/
def setModeScores (m : LeaderboardManager) (mode : String)
    (scores : List ScoreEntry) : LeaderboardManager :=
  if mode = "easy" then { m with easyModeScores := scores }
  else { m with hardModeScores := scores }

/-- Embeds `saveScores(mode, scores)`: store the stringified list under the
key obtained by appending the mode to "leaderboard_". -/
def saveScores (m : LeaderboardManager) (mode : String)
    (scores : List ScoreEntry) : LeaderboardManager :=
  { m with
    localStorage := fun k =>
      if k = "leaderboard_" ++ mode then some scores else m.localStorage k }

/-- Embeds `addScore(mode, name, score)`. `remote` is the outcome of the POST
round-trip: `some updatedScores` when `response.ok` and the parsed body is the
array `updatedScores` (which the code adopts and mirrors to cache), `none` when
the fetch threw or `response.ok` was false (the caught path), in which case the
code pushes/sorts/truncates locally and writes the result to the cache. -/
def addScore (m : LeaderboardManager) (mode : String) (name : Option String)
    (score : Int) (remote : Option (List ScoreEntry)) (now : Nat) :
    LeaderboardManager :=
  match remote with
  | some updatedScores => saveScores (setModeScores m mode updatedScores) mode updatedScores
  | none =>
      let scores := addScoreFallbackList (getScores m mode) name score now
      saveScores (setModeScores m mode scores) mode scores

/-- Embeds `clearScores(mode)`: empty the in-memory list of the mode, write `[]` to the
cache, then fire the remote clear whose failure is caught and only logged —
`remoteClearOk` records that outcome, and the resulting state does not depend
on it. -/
def clearScores (m : LeaderboardManager) (mode : String)
    (_remoteClearOk : Bool) : LeaderboardManager :=
  saveScores (setModeScores m mode []) mode []

/-- Embeds `isHighScore(mode, score)`: lowestScore is the score of the last
entry (0 when the list is empty); the result is
`scores.length < 10 || score > lowestScore`. -/
def isHighScore (m : LeaderboardManager) (mode : String) (score : Int) : Bool :=
  let scores := getScores m mode
  let lowestScore : Int :=
    match scores.getLast? with
    | some e => e.score
    | none => 0
  decide (scores.length < 10) || decide (lowestScore < score)

/-- The cache-fallback tail of `loadScores(mode)` (reached when the fetch threw
or returned a non-ok status):
`const cachedScores = localStorage.getItem(...); const scores = cachedScores ? JSON.parse(cachedScores) : [];`.
The `try/catch` in the source encloses only the fetch, so a `parse` failure
propagates out of the (async) function — hence the `Except` result. `getItem`
returns `none` when the key is absent; the JS truthiness test also maps `""`
to `[]`. -/
def loadScoresFromCache (parse : String → Except Unit (List ScoreEntry))
    (cachedScores : Option String) : Except Unit (List ScoreEntry) :=
  match cachedScores with
  | none => Except.ok []
  | some s => if s = "" then Except.ok [] else parse s

/-! ## Spreadsheet-backed remote handler (src/netlify/functions/scores.js, and
identically src/builds/003_facegame/server.js) -/

/-- One appended sheet row `[mode, name, score, date]`. Reading it back, the
GET branch maps it to the JSON object `{mode, name, score: Number(score), date}`,
which has exactly these fields, so the same structure serves as the GET
response entry type. Note the extra `mode` field relative to `ScoreEntry`. -/
structure SheetRow where
  mode : String
  name : Option String
  score : Int
  date : Nat
deriving DecidableEq, Repr

/-- A parsed POST body `{mode, name, score}`; `score = none` means absent or
non-numeric (the JS type of score is not number). -/
structure PostBody where
  mode : Option String
  name : Option String
  score : Option Int
deriving DecidableEq, Repr

/-- JS truthiness of an optional string: `!x` is true when `x` is `undefined`
or the empty string. -/
def jsFalsyStr : Option String → Bool
  | none => true
  | some s => s == ""

/-- The JSON bodies the spreadsheet handler can answer with: a score array
(GET), `{success: true}` (POST 200), or `{error: msg}`. -/
inductive JsonBody where
  | list (entries : List SheetRow)
  | success
  | errorMsg (msg : String)
deriving DecidableEq, Repr

/-- A handler response: HTTP status code plus JSON body. -/
structure HandlerResponse where
  statusCode : Nat
  body : JsonBody
deriving DecidableEq, Repr

/-- POST branch of the handler: reject with status 400 and an error body when
mode is falsy or score is not a number (note: `name` is never checked); otherwise
append the row `[mode, name, score, new Date().toISOString()]` and answer
`{success: true}`. `appendOk` is the outcome of the Sheets API call; when it
throws, the catch answers 500 and nothing was appended. Returns the response
together with the resulting sheet rows. -/
def scoresPostHandler (rows : List SheetRow) (body : PostBody) (now : Nat)
    (appendOk : Bool) : HandlerResponse × List SheetRow :=
  if jsFalsyStr body.mode || body.score.isNone then
    (⟨400, JsonBody.errorMsg "Invalid input"⟩, rows)
  else if appendOk then
    (⟨200, JsonBody.success⟩,
      rows ++ [⟨body.mode.getD "", body.name, body.score.getD 0, now⟩])
  else
    (⟨500, JsonBody.errorMsg "Failed to save score"⟩, rows)

/-- Sort comparator of the GET branch, `(a, b) => b.score - a.score`:
`a` may precede `b` iff `b.score ≤ a.score`. It looks only at scores — no date
tie-break — so stability leaves equal-score rows in sheet (append) order. -/
def sheetScoreDesc (a b : SheetRow) : Prop :=
  b.score ≤ a.score

instance : DecidableRel sheetScoreDesc := fun a b => by
  unfold sheetScoreDesc; infer_instance

instance : IsTotal SheetRow sheetScoreDesc :=
  ⟨by intro a b; unfold sheetScoreDesc; omega⟩

instance : IsTrans SheetRow sheetScoreDesc :=
  ⟨by intro a b c hab hbc; unfold sheetScoreDesc at *; omega⟩

/-- GET branch of the handler:
the mode is the query parameter if truthy, else "easy" (so only a missing or empty parameter
defaults), then `rows.filter(row => row[0] === mode).map(...).sort((a,b) => b.score - a.score).slice(0, 10)`.
Returns the array of the 200 body. -/
def scoresGetHandler (rows : List SheetRow) (modeParam : Option String) :
    List SheetRow :=
  let mode := if jsFalsyStr modeParam then "easy" else modeParam.getD ""
  ((((rows.filter (fun row => row.mode == mode)).map
      (fun row => ({ mode := row.mode, name := row.name, score := row.score,
                     date := row.date } : SheetRow))).insertionSort
      sheetScoreDesc).take 10)

/-! ## Key-value-blob-backed store (src/builds/003_facegame/netlify/utils/scoresDb.js) -/

/-- Embeds `scoresDb.getScores(mode)`. `fetched` is the outcome of
`await store.get(`scores_${mode}`)`: `Except.error ()` if the read threw,
otherwise the stored string or `none`. The `try/catch` encloses both the read
and the `JSON.parse`, so every failure yields `[]`. -/
def kvGetScores (fetched : Except Unit (Option String))
    (parse : String → Except Unit (List ScoreEntry)) : List ScoreEntry :=
  match fetched with
  | Except.error _ => []
  | Except.ok none => []
  | Except.ok (some s) =>
      if s = "" then []
      else
        match parse s with
        | Except.ok l => l
        | Except.error _ => []

/-- Embeds `scoresDb.saveScores(mode, name, newScore)` applied to the current stored
list: push `{name, score: newScore, date}`, sort (score desc, date desc),
truncate to 10; the result is what is stored back and returned. -/
def kvSaveScores (scores : List ScoreEntry) (name : Option String)
    (newScore : Int) (now : Nat) : List ScoreEntry :=
  ((scores ++ [(⟨name, newScore, now⟩ : ScoreEntry)]).insertionSort scoreDateDesc).take 10

/-- Projection from a spreadsheet GET entry `{mode, name, score, date}` to the
`{name, score, date}` shape the key-value store serves, for comparing the two
outputs of the two backends. -/
def dropModeField (r : SheetRow) : ScoreEntry :=
  ⟨r.name, r.score, r.date⟩

/-! ## Helper lemmas -/

lemma addScoreFallbackList_length_le (scores : List ScoreEntry)
    (name : Option String) (score : Int) (now : Nat) :
    (addScoreFallbackList scores name score now).length ≤ 10 := by
  unfold addScoreFallbackList
  simp only [List.length_take]
  omega

lemma addScoreFallbackList_sorted (scores : List ScoreEntry)
    (name : Option String) (score : Int) (now : Nat) :
    List.Pairwise scoreDateDesc (addScoreFallbackList scores name score now) := by
  unfold addScoreFallbackList
  exact List.Pairwise.sublist (List.take_sublist _ _)
    (List.sorted_insertionSort scoreDateDesc _)

lemma getScores_addScore_none (m : LeaderboardManager) (mode : String)
    (name : Option String) (score : Int) (now : Nat) :
    getScores (addScore m mode name score none now) mode =
      addScoreFallbackList (getScores m mode) name score now := by
  unfold addScore getScores setModeScores saveScores
  by_cases h : mode = "easy" <;> simp [h]

/-! ## Claims -/

/-- C2: with the remote service unavailable (local fallback path), after every
`addScore` call the in-memory list for the submitted mode has at most 10
entries and is sorted by score descending, ties by date descending. Stated for
an arbitrary prior state, so it holds after each call of any call sequence. -/
theorem addScore_fallback_length_le_ten_and_sorted (m : LeaderboardManager)
    (mode : String) (name : Option String) (score : Int) (now : Nat) :
    (getScores (addScore m mode name score none now) mode).length ≤ 10 ∧
    List.Pairwise scoreDateDesc (getScores (addScore m mode name score none now) mode) := by
  rw [getScores_addScore_none]
  exact ⟨addScoreFallbackList_length_le _ _ _ _, addScoreFallbackList_sorted _ _ _ _⟩

/-- C5: `isHighScore(mode, s)` returns true whenever the current list for the
mode has fewer than 10 entries (any `s`, negative included), and with exactly
10 entries it returns true iff `s` strictly exceeds the score of the last
(10th-place) entry. It is a pure function of the state. -/
theorem isHighScore_spec (m : LeaderboardManager) (mode : String) (s : Int) :
    ((getScores m mode).length < 10 → isHighScore m mode s = true) ∧
    (∀ e, (getScores m mode).length = 10 → (getScores m mode).getLast? = some e →
      (isHighScore m mode s = true ↔ e.score < s)) := by
  constructor
  · intro h
    simp [isHighScore, h]
  · intro e hlen hlast
    simp [isHighScore, hlen, hlast]

/-- Witness for C5: a manager with an empty easy list accepts a negative score,
and one with a full (10-entry, lowest score 1) list accepts 7 iff 1 < 7. -/
theorem isHighScore_spec_witness :
    isHighScore ⟨[], [], fun _ => none⟩ "easy" (-5) = true ∧
    (isHighScore ⟨[⟨none, 10, 0⟩, ⟨none, 9, 0⟩, ⟨none, 8, 0⟩, ⟨none, 7, 0⟩,
        ⟨none, 6, 0⟩, ⟨none, 5, 0⟩, ⟨none, 4, 0⟩, ⟨none, 3, 0⟩, ⟨none, 2, 0⟩,
        ⟨none, 1, 0⟩], [], fun _ => none⟩ "easy" 7 = true ↔
      (⟨none, 1, 0⟩ : ScoreEntry).score < 7) :=
  ⟨(isHighScore_spec ⟨[], [], fun _ => none⟩ "easy" (-5)).1 (by decide),
   (isHighScore_spec ⟨[⟨none, 10, 0⟩, ⟨none, 9, 0⟩, ⟨none, 8, 0⟩, ⟨none, 7, 0⟩,
        ⟨none, 6, 0⟩, ⟨none, 5, 0⟩, ⟨none, 4, 0⟩, ⟨none, 3, 0⟩, ⟨none, 2, 0⟩,
        ⟨none, 1, 0⟩], [], fun _ => none⟩ "easy" 7).2 ⟨none, 1, 0⟩ (by decide) (by decide)⟩

/-- C7: `clearScores(m)` yields the same state whatever the remote clear
outcome (the failure is caught, so the call completes either way), empties the
in-memory list of the mode, overwrites the cache entry of the mode with `[]`,
and leaves the other in-memory list and every other cache key unchanged. -/
theorem clearScores_spec (m : LeaderboardManager) (mode : String) (ok ok' : Bool) :
    clearScores m mode ok = clearScores m mode ok' ∧
    getScores (clearScores m mode ok) mode = [] ∧
    (clearScores m mode ok).localStorage ("leaderboard_" ++ mode) = some [] ∧
    (mode = "easy" → (clearScores m mode ok).hardModeScores = m.hardModeScores) ∧
    (mode ≠ "easy" → (clearScores m mode ok).easyModeScores = m.easyModeScores) ∧
    (∀ k, k ≠ "leaderboard_" ++ mode →
      (clearScores m mode ok).localStorage k = m.localStorage k) := by
  unfold clearScores getScores saveScores setModeScores
  by_cases h : mode = "easy" <;> simp [h] <;>
    exact fun k hk hk2 => absurd hk2 hk

/-- Witness for C7: clearing easy leaves the hard list alone and vice versa. -/
theorem clearScores_spec_witness :
    (clearScores ⟨[⟨some "a", 3, 0⟩], [⟨some "b", 4, 1⟩], fun _ => none⟩
        "easy" false).hardModeScores = [⟨some "b", 4, 1⟩] ∧
    (clearScores ⟨[⟨some "a", 3, 0⟩], [⟨some "b", 4, 1⟩], fun _ => none⟩
        "hard" false).easyModeScores = [⟨some "a", 3, 0⟩] :=
  ⟨(clearScores_spec ⟨[⟨some "a", 3, 0⟩], [⟨some "b", 4, 1⟩], fun _ => none⟩
      "easy" false true).2.2.2.1 rfl,
   (clearScores_spec ⟨[⟨some "a", 3, 0⟩], [⟨some "b", 4, 1⟩], fun _ => none⟩
      "hard" false true).2.2.2.2.1 (by decide)⟩

/-- C9: every mode string other than exactly "easy" (including "hard" and any
unknown value) aliases to the hard-mode list in `getScores`, `isHighScore`, the
local fallback of `addScore`, and `clearScores`: the hard list is the one read
and written, and the easy list is untouched. -/
theorem unknown_mode_aliases_to_hard (m : LeaderboardManager) (mode : String)
    (h : mode ≠ "easy") (name : Option String) (s : Int) (now : Nat) (ok : Bool) :
    getScores m mode = m.hardModeScores ∧
    isHighScore m mode s = isHighScore m "hard" s ∧
    (addScore m mode name s none now).hardModeScores =
      addScoreFallbackList m.hardModeScores name s now ∧
    (addScore m mode name s none now).easyModeScores = m.easyModeScores ∧
    (clearScores m mode ok).hardModeScores = [] ∧
    (clearScores m mode ok).easyModeScores = m.easyModeScores := by
  unfold getScores isHighScore addScore clearScores setModeScores saveScores
  simp [h, getScores]

/-- Witness for C9: the unknown mode "weird" reads the hard list. -/
theorem unknown_mode_aliases_to_hard_witness :
    getScores ⟨[], [⟨none, 1, 0⟩], fun _ => none⟩ "weird" = [⟨none, 1, 0⟩] :=
  (unknown_mode_aliases_to_hard ⟨[], [⟨none, 1, 0⟩], fun _ => none⟩ "weird"
    (by decide) none 0 0 true).1

/-- C1 (code bug): on a valid submission the spreadsheet POST handler answers
HTTP 200 whose body is the object `{success: true}` — not the post-update
top-10 JSON array. The client `addScore` (last conjunct) adopts whatever 200
body it parsed as the in-memory list for the mode and mirrors it to the cache
key of that mode, so composed with this handler it does not receive the
claimed ranked list. -/
theorem post_success_body_is_not_the_updated_list :
    (scoresPostHandler [] ⟨some "easy", some "A", some 5⟩ 0 true).1.statusCode = 200 ∧
    (scoresPostHandler [] ⟨some "easy", some "A", some 5⟩ 0 true).1.body = JsonBody.success ∧
    (∀ l : List SheetRow,
      (scoresPostHandler [] ⟨some "easy", some "A", some 5⟩ 0 true).1.body ≠
        JsonBody.list l) ∧
    (∀ (m : LeaderboardManager) (l : List ScoreEntry) (now : Nat),
      (addScore m "easy" (some "A") 5 (some l) now).easyModeScores = l ∧
      (addScore m "easy" (some "A") 5 (some l) now).localStorage "leaderboard_easy" =
        some l) := by
  refine ⟨by decide, by decide, fun l h => ?_, fun m l now => ⟨?_, ?_⟩⟩
  · have hb : (scoresPostHandler [] ⟨some "easy", some "A", some 5⟩ 0 true).1.body =
        JsonBody.success := by decide
    rw [hb] at h
    exact JsonBody.noConfusion h
  · simp [addScore, setModeScores, saveScores]
  · show (if "leaderboard_easy" = "leaderboard_" ++ "easy" then some l
      else (setModeScores m "easy" l).localStorage "leaderboard_easy") = some l
    rw [if_pos (by decide)]

/-- C4 counterexample: the payload `{mode: "easy", score: 5}` lacks `name`, yet
the POST handler accepts it with 200 and appends a row with no name — the
claim says it should get a 400 and leave the store unchanged. -/
theorem post_missing_name_accepted :
    (scoresPostHandler [] ⟨some "easy", none, some 5⟩ 0 true).1.statusCode = 200 ∧
    (scoresPostHandler [] ⟨some "easy", none, some 5⟩ 0 true).1.statusCode ≠ 400 ∧
    (scoresPostHandler [] ⟨some "easy", none, some 5⟩ 0 true).2 = [⟨"easy", none, 5, 0⟩] := by
  refine ⟨by decide, by decide, by decide⟩

/-- C4 amended: the handler answers 400 and performs no mutation exactly when
the payload lacks `mode` (or `mode` is the empty/falsy string) or has a
non-numeric `score`; `name` is never validated. Any other submission is
accepted: when the backend append succeeds the status is 200 and exactly the
new row is appended. -/
theorem post_validation_mode_and_score_only (rows : List SheetRow) (p : PostBody)
    (now : Nat) (ok : Bool) :
    (((scoresPostHandler rows p now ok).1.statusCode = 400 ∧
        (scoresPostHandler rows p now ok).2 = rows) ↔
      (jsFalsyStr p.mode = true ∨ p.score = none)) ∧
    (jsFalsyStr p.mode = false → p.score ≠ none → ok = true →
      (scoresPostHandler rows p now ok).1.statusCode = 200 ∧
      (scoresPostHandler rows p now ok).2 =
        rows ++ [⟨p.mode.getD "", p.name, p.score.getD 0, now⟩]) := by
  unfold scoresPostHandler
  rcases ok <;> by_cases hm : jsFalsyStr p.mode = true <;>
    by_cases hs : p.score = none <;>
    simp_all [Option.isNone_iff_eq_none]

/-- Witness for C4: a complete valid submission is accepted and appended. -/
theorem post_validation_mode_and_score_only_witness :
    (scoresPostHandler [] ⟨some "easy", some "A", some 3⟩ 7 true).1.statusCode = 200 ∧
    (scoresPostHandler [] ⟨some "easy", some "A", some 3⟩ 7 true).2 =
      [⟨"easy", some "A", 3, 7⟩] :=
  (post_validation_mode_and_score_only [] ⟨some "easy", some "A", some 3⟩ 7 true).2
    (by decide) (by decide) rfl

/-- C8 counterexample: with a sheet holding one easy-mode row, a GET for the
unknown mode "medium" returns the empty list, while a GET with the mode
parameter missing returns the easy list — so an unknown mode does not yield
the easy ranked list. -/
theorem get_unknown_mode_not_defaulted :
    scoresGetHandler [⟨"easy", some "A", 5, 0⟩] (some "medium") = [] ∧
    scoresGetHandler [⟨"easy", some "A", 5, 0⟩] none = [⟨"easy", some "A", 5, 0⟩] ∧
    scoresGetHandler [⟨"easy", some "A", 5, 0⟩] (some "medium") ≠
      scoresGetHandler [⟨"easy", some "A", 5, 0⟩] none := by
  refine ⟨by decide, by decide, by decide⟩

/-- C8 amended: a missing (or empty, hence falsy) mode parameter defaults to
"easy", but an unknown mode value does not: it is used verbatim as the row
filter, so every returned entry carries exactly that mode — generally the
empty list, not the easy list. -/
theorem get_mode_default_spec (rows : List SheetRow) (u : String) (hu : u ≠ "") :
    scoresGetHandler rows none = scoresGetHandler rows (some "easy") ∧
    scoresGetHandler rows (some "") = scoresGetHandler rows (some "easy") ∧
    ∀ e ∈ scoresGetHandler rows (some u), e.mode = u := by
  refine ⟨rfl, rfl, fun e he₀ => ?_⟩
  have hb : (u == "") = false := beq_eq_false_iff_ne.mpr hu
  have he : e ∈ List.take 10 (List.insertionSort sheetScoreDesc
      (List.map (fun row => (⟨row.mode, row.name, row.score, row.date⟩ : SheetRow))
        (List.filter (fun row => row.mode == u) rows))) := by
    simpa [scoresGetHandler, jsFalsyStr, hb] using he₀
  have h1 := List.take_subset _ _ he
  have h2 := (List.mem_insertionSort sheetScoreDesc).mp h1
  rcases List.mem_map.mp h2 with ⟨row, hrow, rfl⟩
  exact eq_of_beq (List.mem_filter.mp hrow).2

/-- Witness for C8: on a sheet with one "medium" row, the missing parameter
defaults to easy, and the entry served for mode "medium" carries mode
"medium". -/
theorem get_mode_default_spec_witness :
    scoresGetHandler [⟨"medium", some "B", 7, 1⟩] none =
      scoresGetHandler [⟨"medium", some "B", 7, 1⟩] (some "easy") ∧
    SheetRow.mode ⟨"medium", some "B", 7, 1⟩ = "medium" :=
  ⟨(get_mode_default_spec [⟨"medium", some "B", 7, 1⟩] "medium" (by decide)).1,
   (get_mode_default_spec [⟨"medium", some "B", 7, 1⟩] "medium" (by decide)).2.2
     ⟨"medium", some "B", 7, 1⟩ (by decide)⟩

/-- C3 counterexample: submitting A then B with equal score 5 (dates 1 then 2)
to both backends, the spreadsheet GET (comparator ignores dates; stable sort
keeps append order) serves A before B, while the key-value store (date
descending tie-break) serves B before A — even after projecting away the extra
`mode` field the spreadsheet entries carry, the two lists differ. -/
theorem backends_differ_on_score_ties :
    ((scoresGetHandler
        (scoresPostHandler (scoresPostHandler [] ⟨some "easy", some "A", some 5⟩ 1 true).2
          ⟨some "easy", some "B", some 5⟩ 2 true).2 (some "easy")).map dropModeField
      = [⟨some "A", 5, 1⟩, ⟨some "B", 5, 2⟩]) ∧
    (kvSaveScores (kvSaveScores [] (some "A") 5 1) (some "B") 5 2
      = [⟨some "B", 5, 2⟩, ⟨some "A", 5, 1⟩]) ∧
    ((scoresGetHandler
        (scoresPostHandler (scoresPostHandler [] ⟨some "easy", some "A", some 5⟩ 1 true).2
          ⟨some "easy", some "B", some 5⟩ 2 true).2 (some "easy")).map dropModeField
      ≠ kvSaveScores (kvSaveScores [] (some "A") 5 1) (some "B") 5 2) := by
  refine ⟨by decide, by decide, by decide⟩

/-- C3 amended: the two backends agree on truncation to at most 10 entries and
on sorting by score descending, but they are not observationally equivalent:
score ties come back oldest-first from the spreadsheet handler and newest-first
from the key-value store, and the spreadsheet entries carry an extra `mode`
field (`SheetRow` versus `ScoreEntry`). This theorem is the common part. -/
theorem backends_common_sort_and_truncation (rows : List SheetRow)
    (mp : Option String) (scores : List ScoreEntry) (name : Option String)
    (x : Int) (now : Nat) :
    (scoresGetHandler rows mp).length ≤ 10 ∧
    List.Pairwise sheetScoreDesc (scoresGetHandler rows mp) ∧
    (kvSaveScores scores name x now).length ≤ 10 ∧
    List.Pairwise (fun a b : ScoreEntry => b.score ≤ a.score)
      (kvSaveScores scores name x now) := by
  refine ⟨?_, ?_, ?_, ?_⟩
  · unfold scoresGetHandler
    simp only [List.length_take]
    omega
  · unfold scoresGetHandler
    exact List.Pairwise.sublist (List.take_sublist _ _)
      (List.sorted_insertionSort sheetScoreDesc _)
  · unfold kvSaveScores
    simp only [List.length_take]
    omega
  · unfold kvSaveScores
    refine List.Pairwise.imp (fun hab => ?_)
      (List.Pairwise.sublist (List.take_sublist _ _)
        (List.sorted_insertionSort scoreDateDesc _))
    unfold scoreDateDesc at hab
    omega

/-- C6 counterexample: with the remote fetch failed and the cache holding a
nonempty string on which `JSON.parse` raises (the oracle answers
`Except.error`), the cache fallback of `loadScores` propagates the error
instead of adopting the empty list. -/
theorem corrupt_cache_propagates_parse_error :
    loadScoresFromCache (fun _ => Except.error ()) (some "xyz") = Except.error () ∧
    loadScoresFromCache (fun _ => Except.error ()) (some "xyz") ≠ Except.ok [] :=
  ⟨rfl, fun h => Except.noConfusion h⟩

/-- C6 amended: when the remote fetch fails, an absent or empty cache value
yields the empty list without error, but a nonempty cached string is handed to
`JSON.parse` unprotected — the try/catch covers only the fetch — so corrupt
data makes `loadScores` propagate the parse exception rather than being
treated as absent. -/
theorem loadScores_cache_fallback_spec
    (parse : String → Except Unit (List ScoreEntry)) (s : String) (hs : s ≠ "") :
    loadScoresFromCache parse none = Except.ok [] ∧
    loadScoresFromCache parse (some "") = Except.ok [] ∧
    loadScoresFromCache parse (some s) = parse s := by
  refine ⟨rfl, rfl, ?_⟩
  show (if s = "" then Except.ok [] else parse s) = parse s
  rw [if_neg hs]

/-- Witness for C6 amended: a parsable cached list is adopted, an absent cache
yields the empty list. -/
theorem loadScores_cache_fallback_spec_witness :
    loadScoresFromCache (fun _ => Except.ok []) (some "[]") = Except.ok [] ∧
    loadScoresFromCache (fun _ => Except.ok []) none = Except.ok [] :=
  ⟨(loadScores_cache_fallback_spec (fun _ => Except.ok []) "[]" (by decide)).2.2,
   (loadScores_cache_fallback_spec (fun _ => Except.ok []) "[]" (by decide)).1⟩

/-- C10: the key-value `getScores` is total and never throws: a failed store
read yields `[]`, an absent (or falsy empty) stored value yields `[]`, a value
on which `JSON.parse` raises yields `[]`, and otherwise the parsed list is
returned. -/
theorem kvGetScores_total_spec (parse : String → Except Unit (List ScoreEntry))
    (s : String) :
    kvGetScores (Except.error ()) parse = [] ∧
    kvGetScores (Except.ok none) parse = [] ∧
    (parse s = Except.error () → kvGetScores (Except.ok (some s)) parse = []) ∧
    (∀ l, s ≠ "" → parse s = Except.ok l →
      kvGetScores (Except.ok (some s)) parse = l) := by
  refine ⟨rfl, rfl, fun h => ?_, fun l hs hp => ?_⟩
  · unfold kvGetScores
    by_cases he : s = "" <;> simp [he, h]
  · unfold kvGetScores
    simp [hs, hp]

/-- Witness for C10: a store whose stored string parses to a one-entry list
returns it, and a throwing read returns the empty list. -/
theorem kvGetScores_total_spec_witness :
    kvGetScores (Except.ok (some "bad"))
      (fun t => if t = "bad" then Except.error () else Except.ok []) = [] ∧
    kvGetScores (Except.error ())
      (fun t => if t = "bad" then Except.error () else Except.ok []) = [] :=
  ⟨(kvGetScores_total_spec (fun t => if t = "bad" then Except.error () else Except.ok [])
      "bad").2.2.1 (by simp),
   (kvGetScores_total_spec (fun t => if t = "bad" then Except.error () else Except.ok [])
      "bad").1⟩

end FaceGame
